import Mathlib

/-!
Verification development for the terminy data engine
(src/logic: file_object.py, directory.py, controller.py, storage.py,
indexer.py, record.py, helpers.py).

Part 1 below embeds the object tree and its mutation protocol; Part 2 the
serialization layer; Part 3 the load/create logic; Part 4 the search index.
Definitions come first, all theorems afterwards.
-/

namespace Terminy

/-- Model of `FileObject` / `Directory` / `Record` instances. Objects live in
an arena (`Heap`) keyed by `oid`, which stands for Python object identity
(`==` on `FileObject`s is identity, no `__eq__` is defined). Two distinct
parent fields mirror the source precisely: `parentU` is the `_parent`
attribute initialised in `FileObject.__init__` and read by `is_child_of`,
`get_full_path` and the controller; `parentA` is the plain `parent`
attribute assigned by `Directory.release_children` / `inherit_children` /
`copy` (`parentA = none` means the attribute was never assigned, so reading
it raises `AttributeError`; `parentA = some v` means the attribute exists
and holds `v`). Record metadata fields (name, description, tags, validity)
are omitted here: none of the operations modelled in this part read them.
`children` models `_children` (empty and unused for Records). -/
structure Obj where
  oid : Nat
  isDir : Bool
  fileName : String
  restorePath : Option String
  parentU : Option Nat
  parentA : Option (Option Nat)
  children : List Nat
deriving DecidableEq

abbrev Heap := List Obj

def findObj (h : Heap) (i : Nat) : Option Obj :=
  h.find? (fun o => o.oid == i)

def childrenOf (h : Heap) (i : Nat) : List Nat :=
  ((findObj h i).map Obj.children).getD []

def parentAof (h : Heap) (i : Nat) : Option (Option Nat) :=
  ((findObj h i).map Obj.parentA).getD none

def parentUof (h : Heap) (i : Nat) : Option Nat :=
  ((findObj h i).map Obj.parentU).getD none

def fileNameOf (h : Heap) (i : Nat) : String :=
  ((findObj h i).map Obj.fileName).getD ""

def isDirOf (h : Heap) (i : Nat) : Bool :=
  ((findObj h i).map Obj.isDir).getD false

def restoreOf (h : Heap) (i : Nat) : Option String :=
  ((findObj h i).map Obj.restorePath).getD none

/-- Update the object with identity `i` in the arena. -/
def updObj (h : Heap) (i : Nat) (f : Obj → Obj) : Heap :=
  h.map (fun o => if o.oid = i then f o else o)

def setChildren (h : Heap) (i : Nat) (cs : List Nat) : Heap :=
  updObj h i (fun o => { o with children := cs })

/-- Assign the plain `parent` attribute (after an assignment the attribute
always exists, hence `some v`). -/
def setParentA (h : Heap) (i : Nat) (v : Option Nat) : Heap :=
  updObj h i (fun o => { o with parentA := some v })

def setRestore (h : Heap) (i : Nat) (v : Option String) : Heap :=
  updObj h i (fun o => { o with restorePath := v })

/-- `FileObject.is_child_of` (file_object.py:48-54): walk the `_parent`
chain looking for `other`. The Python `while` loop is modelled with fuel
`h.length`; every `_parent` chain occurring in this development is acyclic
and no longer than the arena, so the fuel never runs out. -/
def isChildOfAux (h : Heap) (otherId : Nat) : Nat → Option Nat → Bool
  | _, none => false
  | 0, some _ => false
  | fuel + 1, some p => if p = otherId then true else isChildOfAux h otherId fuel (parentUof h p)

def isChildOf (h : Heap) (selfId otherId : Nat) : Bool :=
  isChildOfAux h otherId h.length (parentUof h selfId)

/-- The `while current:` walk of `FileObject.get_full_path`
(file_object.py:84-90), collecting `_file_name`s along the `_parent`
chain, with fuel as in `isChildOf`. -/
def pathPartsAux (h : Heap) : Nat → Option Nat → List String
  | _, none => []
  | 0, some _ => []
  | fuel + 1, some c => fileNameOf h c :: pathPartsAux h fuel (parentUof h c)

/-- Python `str.strip` with `/` removes the character from both ends. -/
def stripSlashes (s : String) : String :=
  String.mk (((s.toList.dropWhile (fun c => c = '/')).reverse.dropWhile (fun c => c = '/')).reverse)

/-- `FileObject.get_full_path` (file_object.py:84-90). -/
def getFullPath (h : Heap) (i : Nat) : String :=
  "/" ++ stripSlashes (String.intercalate "/" (pathPartsAux h (h.length + 1) (some i)).reverse)

/-- `Directory.release_children` (directory.py:68-78). Children are given by
object identity. `child.parent = None` assigns the plain `parent` attribute
(`parentA`); the `_parent` field is not touched by the source. -/
def releaseChildren (h : Heap) (selfId : Nat) : List Nat → Heap × List Nat
  | [] => (h, [])
  | c :: cs =>
    if c ∈ childrenOf h selfId then
      let h1 := setChildren h selfId ((childrenOf h selfId).erase c)
      let h2 := setParentA h1 c none
      let r := releaseChildren h2 selfId cs
      (r.1, c :: r.2)
    else
      releaseChildren h selfId cs

/-- `Directory._can_inherit_child` (directory.py:99-110). The middle guard
`if not child_candidate` is always false for an actual object
(`FileObject` defines no `__bool__`), and in every modelled call the
candidates are actual objects, so that guard is omitted. -/
def canInheritChild (h : Heap) (selfId c : Nat) : Bool :=
  if c = selfId then false
  else if isChildOf h selfId c then false
  else true

/-- `Directory.can_inherit_children` (directory.py:90-97). -/
def canInheritChildren (h : Heap) (selfId : Nat) (cs : List Nat) : Bool :=
  cs.all (canInheritChild h selfId)

inductive PyErr where
  | attributeError
deriving DecidableEq

/-- The `for child in child_candidates:` loop of
`Directory.inherit_children` (directory.py:121-131). Reading `child.parent`
when the attribute was never assigned raises `AttributeError`. -/
def inheritLoop (selfId : Nat) : Heap → List Nat → Except PyErr (Heap × List Nat)
  | h, [] => .ok (h, [])
  | h, c :: cs =>
    if c ∈ childrenOf h selfId then
      inheritLoop selfId h cs
    else
      match parentAof h c with
      | none => .error .attributeError
      | some v =>
        let h1 := match v with
          | some p => (releaseChildren h p [c]).1
          | none => h
        let h2 := setChildren h1 selfId (childrenOf h1 selfId ++ [c])
        let h3 := setParentA h2 c (some selfId)
        match inheritLoop selfId h3 cs with
        | .ok (h4, rest) => .ok (h4, c :: rest)
        | .error e => .error e

/-- `Directory.inherit_children` (directory.py:112-131). -/
def inheritChildren (h : Heap) (selfId : Nat) (cs : List Nat) (check : Bool) :
    Except PyErr (Heap × List Nat) :=
  if check && !(canInheritChildren h selfId cs) then .ok (h, [])
  else inheritLoop selfId h cs

/-- Controller session state (controller.py): the arena, the root and
recycle-bin Directories, and the identifier cache (`id_cache`), modelled as
the list of cached identifiers (the cache maps `_id` to the object itself,
which the arena already determines). -/
structure CState where
  heap : Heap
  rootId : Nat
  binId : Nat
  idCache : List Nat
deriving DecidableEq

/-- `Controller.delete_file_object` (controller.py:193-208). -/
def deleteFileObject (st : CState) (objId : Nat) : Except PyErr CState :=
  if isChildOf st.heap objId st.binId then
    let cache := st.idCache.erase objId
    match parentUof st.heap objId with
    | some p => .ok { st with heap := (releaseChildren st.heap p [objId]).1, idCache := cache }
    | none => .ok { st with idCache := cache }
  else
    let path := getFullPath st.heap objId
    let h0 := setRestore st.heap objId (some path)
    let h1 := match parentUof h0 objId with
      | some p => (releaseChildren h0 p [objId]).1
      | none => h0
    match inheritChildren h1 st.binId [objId] true with
    | .ok (h2, _) => .ok { st with heap := h2 }
    | .error e => .error e

/-- The component walk of `Controller.path_to_file` (controller.py:334-343):
at each level take the first Directory child whose `_file_name` matches. -/
def pathToFileAux (h : Heap) : Nat → List String → Option Nat
  | cur, [] => some cur
  | cur, p :: ps =>
    match ((childrenOf h cur).filter (fun c => isDirOf h c)).find? (fun c => fileNameOf h c = p) with
    | some c => pathToFileAux h c ps
    | none => none

/-- `Controller.path_to_file` (controller.py:329-343). -/
def pathToFile (h : Heap) (rootId : Nat) (path : String) : Option Nat :=
  if path = "" ∨ path = "/" then some rootId
  else pathToFileAux h rootId (((stripSlashes path).splitOn "/").filter (fun p => p ≠ ""))

/-- `Controller.restore_file_object` (controller.py:210-237). `if not
obj._restore_path` treats both `None` and the empty string as missing. -/
def restoreFileObject (st : CState) (objId : Nat) : Except PyErr CState :=
  if !(isChildOf st.heap objId st.binId) then .ok st
  else
    match restoreOf st.heap objId with
    | none => .ok st
    | some rp =>
      if rp = "" then .ok st
      else
        let h0 := setRestore st.heap objId none
        let target := match pathToFile h0 st.rootId rp with
          | none => st.rootId
          | some t => if isDirOf h0 t then t else st.rootId
        if canInheritChildren h0 target [objId] then
          let h1 := (releaseChildren h0 st.binId [objId]).1
          match inheritChildren h1 target [objId] true with
          | .ok (h2, _) => .ok { st with heap := h2 }
          | .error e => .error e
        else .ok { st with heap := h0 }

/-! Part 2: the serialization layer (`to_dict` / `from_dict` of directory.py
and record.py). Datetimes are modelled as `Int` (a totally ordered clock;
`isoformat` / `fromisoformat` round-trip a datetime exactly, so the string
coding is elided). `_id` fields do not appear: `to_dict` never emits them
and `from_dict` mints a fresh `uuid4` on every load, so identifiers are not
part of the serialized content. `_restore_path` and `_parent` are likewise
never serialized. -/

/-- A tree of live `Directory` / `Record` objects, restricted to the fields
that `to_dict` serializes. -/
inductive FTree where
  | dir (fileName : String) (created modified : Int) (icon : String) (children : List FTree)
  | record (fileName : String) (created modified : Int) (icon : String)
      (name description : String) (vstart vend : Option Int)
      (dataFolder : String) (tags : List String)

/-- The JSON object produced by `to_dict`: a tagged union distinguished by
the `type` key (`Directory` children are a list of such objects). -/
inductive FDict where
  | dirD (fileName : String) (created modified : Int) (icon : String) (children : List FDict)
  | recD (fileName : String) (created modified : Int) (icon : String)
      (name description : String) (vstart vend : Option Int)
      (dataFolder : String) (tags : List String)

mutual

/-- `Directory.to_dict` (directory.py:16-20) / `Record.to_dict`
(record.py:46-55), on top of `FileObject.to_dict` (file_object.py:32-39). -/
def toDictT : FTree → FDict
  | .dir f c m i ch => .dirD f c m i (toDictL ch)
  | .record f c m i n d vs ve df tg => .recD f c m i n d vs ve df tg

def toDictL : List FTree → List FDict
  | [] => []
  | t :: ts => toDictT t :: toDictL ts

end

def isDirD : FDict → Bool
  | .dirD .. => true
  | _ => false

def isRecD : FDict → Bool
  | .recD .. => true
  | _ => false

mutual

/-- `Directory.from_dict` (directory.py:22-42) / `Record.from_dict`
(record.py:57-81). The child list is rebuilt as the comprehension over
children whose `type` tag is `Directory`, concatenated with the
comprehension over children tagged `Record` (directory.py:35-41). -/
def fromDictT : FDict → FTree
  | .dirD f c m i ch => .dir f c m i (fromDictDirs ch ++ fromDictRecs ch)
  | .recD f c m i n d vs ve df tg => .record f c m i n d vs ve df tg

/-- The first comprehension of directory.py:35-38. -/
def fromDictDirs : List FDict → List FTree
  | [] => []
  | d :: ds => if isDirD d then fromDictT d :: fromDictDirs ds else fromDictDirs ds

/-- The second comprehension of directory.py:38-41. -/
def fromDictRecs : List FDict → List FTree
  | [] => []
  | d :: ds => if isRecD d then fromDictT d :: fromDictRecs ds else fromDictRecs ds

end

mutual

/-- The child-list regrouping that `from_dict` actually performs: in every
Directory, the Directory children first (in original relative order), then
the Record children (in original relative order). -/
def regroupT : FTree → FTree
  | .dir f c m i ch => .dir f c m i (regroupDirs ch ++ regroupRecs ch)
  | .record f c m i n d vs ve df tg => .record f c m i n d vs ve df tg

def regroupDirs : List FTree → List FTree
  | [] => []
  | t :: ts =>
    match t with
    | .dir .. => regroupT t :: regroupDirs ts
    | _ => regroupDirs ts

def regroupRecs : List FTree → List FTree
  | [] => []
  | t :: ts =>
    match t with
    | .record .. => regroupT t :: regroupRecs ts
    | _ => regroupRecs ts

end

def childListT : FTree → List FTree
  | .dir _ _ _ _ ch => ch
  | _ => []

def isRecT : FTree → Bool
  | .record .. => true
  | _ => false

/-! Part 3: loading (`Controller._load_or_create_JSON`, `Controller.load`,
`Storage.load_dir`, `Storage.load_config`). A file is `none` when missing;
`DocContent.malformed` stands for content `json.loads` rejects;
`DocContent.parsed none` for a present but falsy payload (`null` / empty
object); `DocContent.parsed (some d)` for a parsed tree document. -/

inductive DocContent where
  | malformed
  | parsed (payload : Option FDict)

inductive CfgContent where
  | malformed
  | parsed (payload : Option (List (String × String)))

inductive LoadErr where
  | fileNotFound
  | parseError
  | emptyData
deriving DecidableEq

/-- `Directory.new_empty_directory()` (directory.py:86-88): a fresh
Directory with default fields, timestamps set to now. -/
def emptyDirModel (now : Int) : FTree := .dir "" now now "" []

/-- `Controller.load` (controller.py:171-181), identical in logic to
`Storage.load_dir` (storage.py:53-64): missing file raises
`FileNotFoundError`; content `json.loads` rejects raises; a falsy payload
yields a fresh empty Directory; otherwise `Directory.from_dict`. -/
def loadDirModel (now : Int) (file : Option DocContent) : Except LoadErr FTree :=
  match file with
  | none => .error .fileNotFound
  | some .malformed => .error .parseError
  | some (.parsed none) => .ok (emptyDirModel now)
  | some (.parsed (some d)) => .ok (fromDictT d)

/-- `Controller._load_or_create_JSON` (controller.py:125-153): when the file
is missing, a fresh empty Directory is saved to it (`save_dir` writes its
`to_dict`), then the file is loaded; the result is the loaded tree together
with the resulting file content. -/
def loadOrCreateJSON (now : Int) (file : Option DocContent) :
    Except LoadErr (FTree × DocContent) :=
  let file1 : DocContent := match file with
    | none => .parsed (some (toDictT (emptyDirModel now)))
    | some c => c
  match loadDirModel now (some file1) with
  | .ok t => .ok (t, file1)
  | .error e => .error e

/-- `Storage.load_config` (storage.py:66-77): missing file and malformed
content raise; a falsy payload raises `ValueError` (modelled `emptyData`). -/
def loadConfigModel (file : Option CfgContent) : Except LoadErr (List (String × String)) :=
  match file with
  | none => .error .fileNotFound
  | some .malformed => .error .parseError
  | some (.parsed none) => .error .emptyData
  | some (.parsed (some d)) => .ok d

/-! Part 4: the search index (`RecordIndexer`, indexer.py). Dictionaries are
association lists; Python sets of identifiers are lists whose order carries
no meaning (all properties proved about them are membership facts or hold
for every order). The fuzzy similarity `rapidfuzz.fuzz.WRatio` is an
opaque parameter `wr`; datetimes are `Int` as in Part 2. -/

/-- `helpers.normalize` (helpers.py:11-12): `unidecode(text).lower().strip()`.
`unidecode` transliterates to ASCII and is the identity on the ASCII
strings used throughout this development, so it is elided; `.lower()` and
`.strip()` (strip whitespace from both ends) are spelled out over the
character list so that they evaluate by kernel reduction. -/
def normalize (s : String) : String :=
  String.mk
    ((((s.toList.map Char.toLower).dropWhile Char.isWhitespace).reverse.dropWhile
      Char.isWhitespace).reverse)

/-- The fields of a `Record` that `RecordIndexer.search` / `_sort` read from
`self.by_id[rid]` (record identity is its `_id` string `rid`). -/
structure RecB where
  rid : String
  name : String
  normalName : String
  fileName : String
  normalFileName : String
  dateCreated : Int
  dateModified : Int
  vstart : Option Int
  vend : Option Int
deriving DecidableEq

/-- The state of a `RecordIndexer` (indexer.py:22-55): forward maps,
inverted maps, the key sets of the four tries, date/validity maps, and the
tag map. -/
structure IdxState where
  byId : List (String × RecB)
  nameNorm : List (String × String)
  fileNorm : List (String × String)
  descNorm : List (String × String)
  idNorm : List (String × String)
  nameToIds : List (String × List String)
  fileToIds : List (String × List String)
  descToIds : List (String × List String)
  idToIds : List (String × List String)
  nameTrie : List String
  fileTrie : List String
  descTrie : List String
  idTrie : List String
  created : List (String × Int)
  modified : List (String × Int)
  vstart : List (String × Option Int)
  vend : List (String × Option Int)
  tags : List (String × List String)
deriving DecidableEq

/-- Python truthiness of an `Optional[str]` argument (`if name:` in
indexer.py:181-188 and 208-211): `None` and the empty string are falsy. -/
def strOpt (o : Option String) : Option String :=
  match o with
  | some s => if s.isEmpty then none else some s
  | none => none

/-- `RecordIndexer._expand_prefix` (indexer.py:242-247): `trie.keys(q)`
returns the stored keys having `q` as a prefix; the first `cap` of them are
expanded through the inverted map and their id sets unioned. -/
def expandPfx (trie : List String) (inv : List (String × List String)) (q : String) (cap : Nat) :
    List String :=
  (((trie.filter (fun k => q.toList.isPrefixOf k.toList)).take cap).flatMap
    (fun k => (List.lookup k inv).getD [])).dedup

/-- The arguments of `RecordIndexer.search` (indexer.py:147-172), with the
source defaults. -/
structure SearchArgs where
  name : Option String := none
  description : Option String := none
  filename : Option String := none
  recordId : Option String := none
  createdMin : Option Int := none
  createdMax : Option Int := none
  modifiedMin : Option Int := none
  modifiedMax : Option Int := none
  vstartMin : Option Int := none
  vstartMax : Option Int := none
  vendMin : Option Int := none
  vendMax : Option Int := none
  requireTags : Option (List String) := none
  anyTags : Option (List String) := none
  excludeTags : Option (List String) := none
  minScore : ℚ := 65
  maxPrefixKeys : Nat := 300
  limit : Nat := 100
  sortBy : String := "relevance"
  descending : Bool := false
deriving DecidableEq

/-- Step 1 of `search` (indexer.py:180-188): one candidate pool per provided
text field, in source order (name, filename, description, record_id). -/
def poolsOf (st : IdxState) (a : SearchArgs) : List (List String) :=
  (match strOpt a.name with
   | some s => [expandPfx st.nameTrie st.nameToIds (normalize s) a.maxPrefixKeys]
   | none => []) ++
  (match strOpt a.filename with
   | some s => [expandPfx st.fileTrie st.fileToIds (normalize s) a.maxPrefixKeys]
   | none => []) ++
  (match strOpt a.description with
   | some s => [expandPfx st.descTrie st.descToIds (normalize s) a.maxPrefixKeys]
   | none => []) ++
  (match strOpt a.recordId with
   | some s => [expandPfx st.idTrie st.idToIds (normalize s) a.maxPrefixKeys]
   | none => [])

def keysOf (byId : List (String × RecB)) : List String := byId.map Prod.fst

/-- `set.intersection(*pools)` over a nonempty pools list. -/
def intersectAll : List (List String) → List String
  | [] => []
  | p :: ps => ps.foldl List.inter p

/-- indexer.py:190-196: intersect the pools; an empty combined pool (also an
empty pools list, i.e. no text field) falls back to all of `by_id`. -/
def candidatePool (st : IdxState) (a : SearchArgs) : List String :=
  let pools := poolsOf st a
  if pools.isEmpty then keysOf st.byId
  else
    let ip := intersectAll pools
    if ip.isEmpty then keysOf st.byId else ip

/-- `in_range` inside `RecordIndexer._filter_dates` (indexer.py:257-262).
A `datetime` object is always truthy, so `if (lo or hi)` and `if lo and ...`
test only for `None`. -/
def inRange (v lo hi : Option Int) : Bool :=
  match v with
  | none => !(lo.isSome || hi.isSome)
  | some t => !(lo.any (fun l => decide (t < l))) && !(hi.any (fun u => decide (u < t)))

/-- `RecordIndexer._filter_dates` (indexer.py:249-271). `self.vstart.get(rid)`
conflates a missing key with a stored `None`, hence the `Option.join`. -/
def filterDates (st : IdxState) (ids : List String)
    (cmin cmax mmin mmax smin smax emin emax : Option Int) : List String :=
  ids.filter (fun rid =>
    inRange (List.lookup rid st.created) cmin cmax &&
    inRange (List.lookup rid st.modified) mmin mmax &&
    inRange ((List.lookup rid st.vstart).join) smin smax &&
    inRange ((List.lookup rid st.vend).join) emin emax)

/-- `RecordIndexer._filter_tags` (indexer.py:273-291). -/
def filterTagsM (st : IdxState) (ids : List String)
    (req anyT exc : Option (List String)) : List String :=
  let reqN := (req.getD []).map normalize
  let anyN := (anyT.getD []).map normalize
  let excN := (exc.getD []).map normalize
  ids.filter (fun rid =>
    let tset := (List.lookup rid st.tags).getD []
    (reqN.isEmpty || reqN.all (fun t => decide (t ∈ tset))) &&
    (anyN.isEmpty || anyN.any (fun t => decide (t ∈ tset))) &&
    (excN.isEmpty || excN.all (fun t => decide (t ∉ tset))))

/-- Steps 1-2 of `search`: candidate pool, then date and tag filters
(indexer.py:198-204). -/
def filteredPool (st : IdxState) (a : SearchArgs) : List String :=
  filterTagsM st
    (filterDates st (candidatePool st a)
      a.createdMin a.createdMax a.modifiedMin a.modifiedMax
      a.vstartMin a.vstartMax a.vendMin a.vendMax)
    a.requireTags a.anyTags a.excludeTags

/-- The per-record similarity list of step 3 (indexer.py:215-223), in source
order; `self.name_norm[rid]` is a plain dict access, which for any id in an
indexed pool is present (default only as a total-function convenience). -/
def simsOf (wr : String → String → ℚ) (st : IdxState) (a : SearchArgs) (rid : String) :
    List ℚ :=
  (match strOpt a.name with
   | some s => [wr ((List.lookup rid st.nameNorm).getD "") (normalize s)]
   | none => []) ++
  (match strOpt a.filename with
   | some s => [wr ((List.lookup rid st.fileNorm).getD "") (normalize s)]
   | none => []) ++
  (match strOpt a.description with
   | some s => [wr ((List.lookup rid st.descNorm).getD "") (normalize s)]
   | none => []) ++
  (match strOpt a.recordId with
   | some s => [wr ((List.lookup rid st.idNorm).getD "") (normalize s)]
   | none => [])

/-- Step 3 of `search` (indexer.py:207-228): score each surviving id
(average of provided-field similarities, `100.0` when no text field was
supplied) and drop those under `min_score` only when a text field was
supplied. -/
def scoredPairs (wr : String → String → ℚ) (st : IdxState) (a : SearchArgs) :
    List (ℚ × String) :=
  (filteredPool st a).filterMap (fun rid =>
    let sims := simsOf wr st a rid
    let score := if sims.isEmpty then 100 else sims.sum / (sims.length : ℚ)
    if !sims.isEmpty && decide (score < a.minScore) then none else some (score, rid))

def defaultRecB : RecB := ⟨"", "", "", "", "", 0, 0, none, none⟩

/-- `self.by_id[rid]` (present for every id the indexer ever put in a pool). -/
def recOf (st : IdxState) (rid : String) : RecB :=
  (List.lookup rid st.byId).getD defaultRecB

/-- `datetime.max` as a sort key (only its relative order matters). -/
def dtMax : Int := 253402300799

def sortKeyName (r : RecB) : String :=
  if r.normalName.isEmpty then normalize r.name else r.normalName

def sortKeyFile (r : RecB) : String :=
  if r.normalFileName.isEmpty then normalize r.fileName else r.normalFileName

/-- Python `sorted(..., key=f, reverse=descending)`: a stable sort, modelled
by the stable `List.mergeSort`. -/
def msortBy {β : Type} [LinearOrder β] (descending : Bool) (f : RecB → β) (recs : List RecB) :
    List RecB :=
  recs.mergeSort (fun r1 r2 => if descending then decide (f r2 ≤ f r1) else decide (f r1 ≤ f r2))

/-- `RecordIndexer._sort` (indexer.py:293-303); the fallback key for an
unknown `sort_by` is `_date_created`. -/
def sortRecords (recs : List RecB) (sortBy : String) (descending : Bool) : List RecB :=
  if sortBy = "created" then msortBy descending (fun r => r.dateCreated) recs
  else if sortBy = "modified" then msortBy descending (fun r => r.dateModified) recs
  else if sortBy = "validity_end" then msortBy descending (fun r => r.vend.getD dtMax) recs
  else if sortBy = "validity_start" then msortBy descending (fun r => r.vstart.getD dtMax) recs
  else if sortBy = "name" then msortBy descending sortKeyName recs
  else if sortBy = "filename" then msortBy descending sortKeyFile recs
  else if sortBy = "id" then msortBy descending (fun r => normalize r.rid) recs
  else msortBy descending (fun r => r.dateCreated) recs

/-- `RecordIndexer.search` (indexer.py:147-238), steps 4-6: relevance =
stable sort descending by score then truncate; any other `sort_by` sorts
the scored records (or, if nothing was scored, the filtered pool) by that
field. -/
def search (wr : String → String → ℚ) (st : IdxState) (a : SearchArgs) : List RecB :=
  let scored := scoredPairs wr st a
  if a.sortBy = "relevance" then
    ((scored.mergeSort (fun p q => decide (q.1 ≤ p.1))).take a.limit).map (fun p => recOf st p.2)
  else
    let records := if scored.isEmpty then (filteredPool st a).map (recOf st)
      else scored.map (fun p => recOf st p.2)
    (sortRecords records a.sortBy a.descending).take a.limit

/-- Modelled from the spec: claim C9's reading of the candidate pool, in
which the fallback is per field — "a provided field whose expansion yields
no matches falls back to the full identifier universe for that field" — and
the per-field sets are then intersected. -/
def specCandidatePool (st : IdxState) (a : SearchArgs) : List String :=
  let pools := (poolsOf st a).map (fun p => if p.isEmpty then keysOf st.byId else p)
  if pools.isEmpty then keysOf st.byId else intersectAll pools

/-! Concrete configurations used by the claim theorems and witnesses.
Heaps reachable from a deserialized tree have `parentU = none` and
`parentA` absent everywhere (neither `Directory.from_dict` nor
`Record.from_dict`, as invoked by `Directory.from_dict`, sets a parent
link); `parentA` becomes present only once an object has gone through
`release_children` or `inherit_children`. -/

def heapC1 : Heap :=
  [⟨0, true, "A", none, none, none, [1]⟩,
   ⟨1, true, "B", none, none, none, [2]⟩,
   ⟨2, true, "C", none, none, none, []⟩]

def heapC1r : Heap := (releaseChildren heapC1 0 [1]).1

def heapC1out : Heap :=
  [⟨0, true, "A", none, none, none, []⟩,
   ⟨1, true, "B", none, none, some (some 2), [2]⟩,
   ⟨2, true, "C", none, none, none, [1]⟩]

def heapC2 : Heap :=
  [⟨1, true, "P", none, none, none, [2]⟩,
   ⟨2, false, "r", none, none, none, []⟩,
   ⟨3, true, "Q", none, none, none, []⟩]

def heapC2r : Heap := (releaseChildren heapC2 1 [2]).1

def heapC2out : Heap :=
  [⟨1, true, "P", none, none, none, []⟩,
   ⟨2, false, "r", none, none, some (some 3), []⟩,
   ⟨3, true, "Q", none, none, none, [2]⟩]

def heapC5 : Heap :=
  [⟨0, true, "", none, none, none, [1]⟩,
   ⟨1, true, "P", none, none, none, [2]⟩,
   ⟨2, false, "r", none, none, none, []⟩,
   ⟨9, true, "bin", none, none, none, []⟩]

def heapC5a : Heap := (releaseChildren heapC5 1 [2]).1

def heapC5b : Heap :=
  [⟨0, true, "", none, none, none, [1]⟩,
   ⟨1, true, "P", none, none, none, [2]⟩,
   ⟨2, false, "r", none, none, some (some 1), []⟩,
   ⟨9, true, "bin", none, none, none, []⟩]

def stC5 : CState := ⟨heapC5b, 0, 9, [2]⟩

def heapC5d : Heap :=
  [⟨0, true, "", none, none, none, [1]⟩,
   ⟨1, true, "P", none, none, none, []⟩,
   ⟨2, false, "r", some "/r", none, some (some 9), []⟩,
   ⟨9, true, "bin", none, none, none, [2]⟩]

def stC5d : CState := ⟨heapC5d, 0, 9, [2]⟩

def heapC6 : Heap :=
  [⟨0, true, "D", none, none, none, []⟩,
   ⟨1, false, "x", none, none, some none, []⟩]

def heapC6b : Heap :=
  [⟨0, true, "D", none, none, none, [1]⟩,
   ⟨1, false, "x", none, none, some (some 0), []⟩]

def c4tree : FTree :=
  .dir "root" 0 0 "" [.record "r" 0 0 "" "R" "" none none "" [], .dir "d" 0 0 "" []]

def recA9 : RecB := ⟨"a", "x", "x", "f", "f", 0, 0, none, none⟩

def recB9 : RecB := ⟨"b", "y", "y", "g", "g", 0, 0, none, none⟩

def stC9 : IdxState :=
  { byId := [("a", recA9), ("b", recB9)],
    nameNorm := [("a", "x"), ("b", "y")], fileNorm := [("a", "f"), ("b", "g")],
    descNorm := [], idNorm := [],
    nameToIds := [("x", ["a"]), ("y", ["b"])], fileToIds := [("f", ["a"]), ("g", ["b"])],
    descToIds := [], idToIds := [],
    nameTrie := ["x", "y"], fileTrie := ["f", "g"], descTrie := [], idTrie := [],
    created := [("a", 0), ("b", 0)], modified := [("a", 0), ("b", 0)],
    vstart := [("a", none), ("b", none)], vend := [("a", none), ("b", none)],
    tags := [("a", []), ("b", [])] }

def argsC9 : SearchArgs := { name := some "x", filename := some "zzz" }

def argsDefault : SearchArgs := {}

def wrZero : String → String → ℚ := fun _ _ => 0

/-! Theorems. First, arena bookkeeping lemmas. -/

theorem findObj_updObj (i j : Nat) (f : Obj → Obj) (hf : ∀ o : Obj, (f o).oid = o.oid) :
    ∀ h : Heap,
      findObj (updObj h i f) j = (findObj h j).map (fun o => if o.oid = i then f o else o)
  | [] => rfl
  | o :: t => by
    have hgo : (if o.oid = i then f o else o).oid = o.oid := by
      by_cases hi : o.oid = i <;> simp [hi, hf]
    simp only [updObj, List.map_cons, findObj]
    by_cases hj : o.oid = j
    · rw [List.find?_cons_of_pos _ (by rw [hgo]; simp [hj]),
        List.find?_cons_of_pos _ (by simp [hj])]
      simp
    · rw [List.find?_cons_of_neg _ (by rw [hgo]; simp [hj]),
        List.find?_cons_of_neg _ (by simp [hj])]
      simpa [updObj, findObj] using findObj_updObj i j f hf t

theorem findObj_setChildren (h : Heap) (i : Nat) (cs : List Nat) (j : Nat) :
    findObj (setChildren h i cs) j =
      (findObj h j).map (fun o => if o.oid = i then { o with children := cs } else o) :=
  findObj_updObj i j (fun o => { o with children := cs }) (fun _ => rfl) h

theorem findObj_setParentA (h : Heap) (i : Nat) (v : Option Nat) (j : Nat) :
    findObj (setParentA h i v) j =
      (findObj h j).map (fun o => if o.oid = i then { o with parentA := some v } else o) :=
  findObj_updObj i j (fun o => { o with parentA := some v }) (fun _ => rfl) h

theorem findObj_setRestore (h : Heap) (i : Nat) (v : Option String) (j : Nat) :
    findObj (setRestore h i v) j =
      (findObj h j).map (fun o => if o.oid = i then { o with restorePath := v } else o) :=
  findObj_updObj i j (fun o => { o with restorePath := v }) (fun _ => rfl) h

theorem childrenOf_setParentA (h : Heap) (i : Nat) (v : Option Nat) (j : Nat) :
    childrenOf (setParentA h i v) j = childrenOf h j := by
  simp only [childrenOf, findObj_setParentA]
  cases ho : findObj h j with
  | none => rfl
  | some o => by_cases hi : o.oid = i <;> simp [hi]

theorem childrenOf_setChildren_self (h : Heap) (i : Nat) (cs : List Nat)
    (hp : (findObj h i).isSome) (hid : ∀ o, findObj h i = some o → o.oid = i) :
    childrenOf (setChildren h i cs) i = cs := by
  simp only [childrenOf, findObj_setChildren]
  cases ho : findObj h i with
  | none => simp [ho] at hp
  | some o => simp [hid o ho]

theorem childrenOf_setChildren_other (h : Heap) (i : Nat) (cs : List Nat) (j : Nat)
    (hij : ∀ o, findObj h j = some o → o.oid ≠ i) :
    childrenOf (setChildren h i cs) j = childrenOf h j := by
  simp only [childrenOf, findObj_setChildren]
  cases ho : findObj h j with
  | none => rfl
  | some o => simp [hij o ho]

theorem parentAof_setChildren (h : Heap) (i : Nat) (cs : List Nat) (j : Nat) :
    parentAof (setChildren h i cs) j = parentAof h j := by
  simp only [parentAof, findObj_setChildren]
  cases ho : findObj h j with
  | none => rfl
  | some o => by_cases hi : o.oid = i <;> simp [hi]

theorem parentAof_setParentA_self (h : Heap) (i : Nat) (v : Option Nat)
    (hp : (findObj h i).isSome) (hid : ∀ o, findObj h i = some o → o.oid = i) :
    parentAof (setParentA h i v) i = some v := by
  simp only [parentAof, findObj_setParentA]
  cases ho : findObj h i with
  | none => simp [ho] at hp
  | some o => simp [hid o ho]

theorem parentUof_setChildren (h : Heap) (i : Nat) (cs : List Nat) (j : Nat) :
    parentUof (setChildren h i cs) j = parentUof h j := by
  simp only [parentUof, findObj_setChildren]
  cases ho : findObj h j with
  | none => rfl
  | some o => by_cases hi : o.oid = i <;> simp [hi]

theorem parentUof_setParentA (h : Heap) (i : Nat) (v : Option Nat) (j : Nat) :
    parentUof (setParentA h i v) j = parentUof h j := by
  simp only [parentUof, findObj_setParentA]
  cases ho : findObj h j with
  | none => rfl
  | some o => by_cases hi : o.oid = i <;> simp [hi]

theorem isSome_findObj_setChildren (h : Heap) (i : Nat) (cs : List Nat) (j : Nat) :
    (findObj (setChildren h i cs) j).isSome = (findObj h j).isSome := by
  simp [findObj_setChildren]

theorem isSome_findObj_setParentA (h : Heap) (i : Nat) (v : Option Nat) (j : Nat) :
    (findObj (setParentA h i v) j).isSome = (findObj h j).isSome := by
  simp [findObj_setParentA]

theorem oid_findObj (h : Heap) (j : Nat) : ∀ o, findObj h j = some o → o.oid = j := by
  intro o ho
  have := List.find?_some ho
  simpa using this

theorem releaseChildren_singleton (h : Heap) (s c : Nat) :
    releaseChildren h s [c] =
      if c ∈ childrenOf h s
      then (setParentA (setChildren h s ((childrenOf h s).erase c)) c none, [c])
      else (h, []) := by
  by_cases hc : c ∈ childrenOf h s <;> simp [releaseChildren, hc]

theorem parentUof_releaseChildren_singleton (h : Heap) (s c j : Nat) :
    parentUof (releaseChildren h s [c]).1 j = parentUof h j := by
  rw [releaseChildren_singleton]
  by_cases hc : c ∈ childrenOf h s <;>
    simp [hc, parentUof_setParentA, parentUof_setChildren]

theorem childrenOf_releaseChildren_singleton_other (h : Heap) (s c j : Nat)
    (hsj : s ≠ j ∨ c ∉ childrenOf h s) :
    childrenOf (releaseChildren h s [c]).1 j = childrenOf h j := by
  rw [releaseChildren_singleton]
  by_cases hc : c ∈ childrenOf h s
  · rcases hsj with hsj | hsj
    · simp only [hc, if_pos, childrenOf_setParentA]
      exact childrenOf_setChildren_other h s _ j
        (fun o ho => by rw [oid_findObj h j o ho]; exact fun he => hsj he.symm)
    · exact absurd hc hsj
  · simp [hc]

theorem isSome_findObj_releaseChildren_singleton (h : Heap) (s c j : Nat) :
    (findObj (releaseChildren h s [c]).1 j).isSome = (findObj h j).isSome := by
  rw [releaseChildren_singleton]
  by_cases hc : c ∈ childrenOf h s <;>
    simp [hc, isSome_findObj_setParentA, isSome_findObj_setChildren]

theorem isSome_findObj_of_parentAof {h : Heap} {x : Nat} {v : Option Nat}
    (hpa : parentAof h x = some v) : (findObj h x).isSome = true := by
  cases hfo : findObj h x with
  | none => simp [parentAof, hfo] at hpa
  | some o => rfl

theorem c6_main (h h' : Heap) (D x : Nat)
    (hch : childrenOf h' D = childrenOf h D)
    (hpres : (findObj h' D).isSome = true)
    (hxpres : (findObj h' x).isSome = true)
    (hxU2 : parentUof h' x = parentUof h x)
    (hxU : parentUof h x = none)
    (hmem : x ∉ childrenOf h D) :
    (releaseChildren (setParentA (setChildren h' D (childrenOf h' D ++ [x])) x (some D)) D [x]).2
        = [x] ∧
    parentAof
      (releaseChildren (setParentA (setChildren h' D (childrenOf h' D ++ [x])) x (some D)) D [x]).1
        x = some none ∧
    parentUof
      (releaseChildren (setParentA (setChildren h' D (childrenOf h' D ++ [x])) x (some D)) D [x]).1
        x = none ∧
    childrenOf
      (releaseChildren (setParentA (setChildren h' D (childrenOf h' D ++ [x])) x (some D)) D [x]).1
        D = childrenOf h D := by
  set h2 := setChildren h' D (childrenOf h' D ++ [x]) with hh2
  set h1 := setParentA h2 x (some D) with hh1
  have hpres2 : (findObj h2 D).isSome = true := by
    rw [hh2, isSome_findObj_setChildren]; exact hpres
  have hpres1 : (findObj h1 D).isSome = true := by
    rw [hh1, isSome_findObj_setParentA]; exact hpres2
  have hxpres2 : (findObj h2 x).isSome = true := by
    rw [hh2, isSome_findObj_setChildren]; exact hxpres
  have hxpres1 : (findObj h1 x).isSome = true := by
    rw [hh1, isSome_findObj_setParentA]; exact hxpres2
  have hch1 : childrenOf h1 D = childrenOf h D ++ [x] := by
    rw [hh1, childrenOf_setParentA, hh2,
      childrenOf_setChildren_self h' D _ hpres (oid_findObj h' D), hch]
  have hxmem1 : x ∈ childrenOf h1 D := by
    rw [hch1]; exact List.mem_append_right _ (List.mem_singleton.2 rfl)
  have herase : (childrenOf h1 D).erase x = childrenOf h D := by
    rw [hch1, List.erase_append_right _ hmem, List.erase_cons_head, List.append_nil]
  rw [releaseChildren_singleton, if_pos hxmem1, herase]
  refine ⟨rfl, ?_, ?_, ?_⟩
  · exact parentAof_setParentA_self _ x none
      (by rw [isSome_findObj_setChildren]; exact hxpres1)
      (oid_findObj _ x)
  · rw [parentUof_setParentA, parentUof_setChildren, hh1, parentUof_setParentA, hh2,
      parentUof_setChildren, hxU2, hxU]
  · rw [childrenOf_setParentA,
      childrenOf_setChildren_self h1 D _ hpres1 (oid_findObj h1 D)]

/-- Claim C6: for every Directory D and FileObject x for which the validated
attach succeeds (`D.inherit_children([x])` returns exactly `[x]`),
attaching and then detaching (`release_children([x])`) returns x to a
parent-less state (the `parent` attribute the attach maintains is cleared
to `None`, and the `_parent` field, `none` beforehand as in every reachable
state, is still `none`) and restores D's child list to its prior content
and order. -/
theorem c6_attach_then_detach (h : Heap) (D x : Nat) (h1 : Heap)
    (hD : (findObj h D).isSome = true)
    (hxU : parentUof h x = none)
    (hsucc : inheritChildren h D [x] true = Except.ok (h1, [x])) :
    (releaseChildren h1 D [x]).2 = [x] ∧
    parentAof (releaseChildren h1 D [x]).1 x = some none ∧
    parentUof (releaseChildren h1 D [x]).1 x = none ∧
    childrenOf (releaseChildren h1 D [x]).1 D = childrenOf h D := by
  unfold inheritChildren at hsucc
  by_cases hcan : canInheritChildren h D [x]
  case neg => simp [hcan] at hsucc
  rw [if_neg (by simp [hcan])] at hsucc
  by_cases hmem : x ∈ childrenOf h D
  · simp [inheritLoop, hmem] at hsucc
  · cases hpa : parentAof h x with
    | none => simp [inheritLoop, hmem, hpa] at hsucc
    | some v =>
      have hxp0 : (findObj h x).isSome = true := isSome_findObj_of_parentAof hpa
      simp only [inheritLoop, hmem, if_neg, ite_false, hpa] at hsucc
      cases v with
      | none =>
        simp only [inheritLoop] at hsucc
        have hh1 : setParentA (setChildren h D (childrenOf h D ++ [x])) x (some D) = h1 := by
          simpa using hsucc
        rw [← hh1]
        exact c6_main h h D x rfl hD hxp0 rfl hxU hmem
      | some p =>
        simp only [inheritLoop] at hsucc
        set h' := (releaseChildren h p [x]).1 with hh'
        have hh1 : setParentA (setChildren h' D (childrenOf h' D ++ [x])) x (some D) = h1 := by
          simpa using hsucc
        have hchp : childrenOf h' D = childrenOf h D := by
          rw [hh']
          refine childrenOf_releaseChildren_singleton_other h p x D ?_
          by_cases hpD : p = D
          · subst hpD; exact Or.inr hmem
          · exact Or.inl hpD
        rw [← hh1]
        refine c6_main h h' D x hchp ?_ ?_ ?_ hxU hmem
        · rw [hh', isSome_findObj_releaseChildren_singleton]; exact hD
        · rw [hh', isSome_findObj_releaseChildren_singleton]; exact hxp0
        · rw [hh', parentUof_releaseChildren_singleton]

/-- Witness for C6 at a concrete two-object arena. -/
theorem c6_attach_then_detach_witness :
    (releaseChildren heapC6b 0 [1]).2 = [1] ∧
    parentAof (releaseChildren heapC6b 0 [1]).1 1 = some none ∧
    parentUof (releaseChildren heapC6b 0 [1]).1 1 = none ∧
    childrenOf (releaseChildren heapC6b 0 [1]).1 0 = childrenOf heapC6 0 :=
  c6_attach_then_detach heapC6 0 1 heapC6b (by decide) (by decide) (by rfl)

/-- Claim C1, evaluated at its failing input: in the arena `heapC1` (a
freshly deserialized chain A ⊃ B ⊃ C of Directories) after
`A.release_children([B])`, B is still an ancestor of C in the real tree
structure (C sits in B's child list), yet `C.inherit_children([B])` with
validation passes the `_can_inherit_child` guard — which consults the
never-assigned `_parent` chain — returns `[B]` and mutates both subtrees,
leaving the cycle B ∈ children(C) and C ∈ children(B). The claim requires
the call to return `[]` and change nothing. -/
theorem c1_cycle_guard_broken_eval :
    (releaseChildren heapC1 0 [1]).2 = [1] ∧
    2 ∈ childrenOf heapC1r 1 ∧
    canInheritChildren heapC1r 2 [1] = true ∧
    inheritChildren heapC1r 2 [1] true = Except.ok (heapC1out, [1]) ∧
    2 ∈ childrenOf heapC1out 1 ∧
    1 ∈ childrenOf heapC1out 2 :=
  ⟨by decide, by decide, by decide, by rfl, by decide, by decide⟩

/-- Claim C2, evaluated at its failing input: in `heapC2r` (Record r released
from Directory P), `Q.inherit_children([r])` succeeds and returns `[r]`,
but the parent back-reference read by `is_child_of` and `get_full_path` —
the `_parent` field — still designates nothing: `r.is_child_of(Q)` is false
and `r.get_full_path()` is "/r", not a path below Q. Only the plain
`parent` attribute (which neither reader consults) designates Q. -/
theorem c2_parent_backreference_not_set_eval :
    inheritChildren heapC2r 3 [2] true = Except.ok (heapC2out, [2]) ∧
    2 ∈ childrenOf heapC2out 3 ∧
    parentAof heapC2out 2 = some (some 3) ∧
    isChildOf heapC2out 2 3 = false ∧
    getFullPath heapC2out 2 = "/r" :=
  ⟨by rfl, by decide, by decide, by decide, by rfl⟩

/-- Claims C5 and C3, step 1, evaluated: in `stC5` (root ⊃ P ⊃ r, with r's
`parent` attribute present after a plain move), `delete_file_object(r)`
does soft-delete r into the recycle bin, but records the restore path as
"/r" (computed from the unmaintained `_parent` chain) instead of "/P/r",
and the subsequent `restore_file_object(r)` refuses to do anything: its
`is_child_of(recycle_bin)` test reads the `_parent` field, which the
recycle-bin attach never set, so r stays in the recycle bin and is never
reattached under P. -/
theorem c5_restore_refused_eval :
    deleteFileObject stC5 2 = Except.ok stC5d ∧
    getFullPath heapC5b 2 = "/r" ∧
    restoreOf heapC5d 2 = some "/r" ∧
    2 ∈ childrenOf heapC5d 9 ∧
    isChildOf heapC5d 2 9 = false ∧
    restoreFileObject stC5d 2 = Except.ok stC5d ∧
    2 ∉ childrenOf heapC5d 1 ∧
    2 ∈ childrenOf heapC5d 9 :=
  ⟨by rfl, by rfl, by decide, by decide, by decide, by rfl, by decide, by decide⟩

/-- Claim C3, evaluated: in `stC5d` the Record r sits inside the recycle bin
(it is in the bin's child list, its `parent` attribute designates the bin),
yet `delete_file_object(r)` does not delete it permanently: the
`is_child_of(recycle_bin)` test reads the never-assigned `_parent` field,
so the soft-delete branch runs again and is a no-op — afterwards r is
still in the identifier cache (`id_to_object` still returns it) and still
in the recycle bin's child list. -/
theorem c3_permanent_delete_never_happens_eval :
    deleteFileObject stC5d 2 = Except.ok stC5d ∧
    2 ∈ stC5d.idCache ∧
    2 ∈ childrenOf stC5d.heap 9 :=
  ⟨by rfl, by decide, by decide⟩

mutual

theorem roundTripT : ∀ t : FTree, fromDictT (toDictT t) = regroupT t
  | .dir f c m i ch => by
    simp only [toDictT, fromDictT, regroupT]
    rw [roundTripDirs ch, roundTripRecs ch]
  | .record f c m i n d vs ve df tg => rfl

theorem roundTripDirs : ∀ l : List FTree, fromDictDirs (toDictL l) = regroupDirs l
  | [] => rfl
  | t :: ts => by
    cases t with
    | dir f c m i ch =>
      simp only [toDictL, toDictT, fromDictDirs, isDirD, if_pos, regroupDirs]
      rw [roundTripDirs ts, ← toDictT, roundTripT (.dir f c m i ch)]
    | record f c m i n d vs ve df tg =>
      simp only [toDictL, toDictT, fromDictDirs, isDirD, if_neg, regroupDirs]
      exact roundTripDirs ts

theorem roundTripRecs : ∀ l : List FTree, fromDictRecs (toDictL l) = regroupRecs l
  | [] => rfl
  | t :: ts => by
    cases t with
    | dir f c m i ch =>
      simp only [toDictL, toDictT, fromDictRecs, isRecD, if_neg, regroupRecs]
      exact roundTripRecs ts
    | record f c m i n d vs ve df tg =>
      simp only [toDictL, toDictT, fromDictRecs, isRecD, if_pos, regroupRecs]
      rw [roundTripRecs ts, ← toDictT, roundTripT (.record f c m i n d vs ve df tg)]

end

/-- Claim C4, counterexample: the tree `c4tree` has a Record before a
Directory in its child list; serializing and deserializing it does not
reproduce it — `from_dict` rebuilds every child list as all Directory
children first, then all Record children (directory.py:35-41), so the
round trip is not the identity. -/
theorem c4_round_trip_counterexample : fromDictT (toDictT c4tree) ≠ c4tree := by
  intro hEq
  have h2 := congrArg (fun t => (childListT t).map isRecT) hEq
  simp only [c4tree, toDictT, toDictL, fromDictT, fromDictDirs, fromDictRecs, isDirD, isRecD,
    childListT, isRecT, if_pos, if_neg, List.map] at h2
  exact absurd h2 (by decide)

/-- Claim C4 (amended): serializing and deserializing any tree built from
the §3 grammar produces the tree with every field value preserved and each
Directory's child list regrouped — Directory children first, Record
children second, each group in its original relative order (so the round
trip is the identity exactly when no Record precedes a Directory among any
siblings); identifiers are not serialized at all. -/
theorem c4_round_trip_regroups (t : FTree) : fromDictT (toDictT t) = regroupT t :=
  roundTripT t

/-- Claim C7: loading a missing tree / recycle-bin document synthesizes an
empty tree and persists it; a missing config document is a hard error;
malformed content is a hard error for both; a present but structurally
empty tree payload yields an empty tree. -/
theorem c7_load_semantics :
    (∀ now : Int, loadOrCreateJSON now none =
      Except.ok (emptyDirModel now, DocContent.parsed (some (toDictT (emptyDirModel now))))) ∧
    loadConfigModel none = Except.error LoadErr.fileNotFound ∧
    (∀ now : Int, loadOrCreateJSON now (some DocContent.malformed) =
      Except.error LoadErr.parseError) ∧
    loadConfigModel (some CfgContent.malformed) = Except.error LoadErr.parseError ∧
    (∀ now : Int, loadOrCreateJSON now (some (DocContent.parsed none)) =
      Except.ok (emptyDirModel now, DocContent.parsed none)) ∧
    loadConfigModel (some (CfgContent.parsed none)) = Except.error LoadErr.emptyData :=
  ⟨fun _ => rfl, rfl, fun _ => rfl, rfl, fun _ => rfl, rfl⟩

theorem inRange_none_none (v : Option Int) : inRange v none none = true := by
  cases v <;> simp [inRange]

/-- Claim C8: in `_filter_dates`, for each of the four date dimensions a
supplied bound excludes records whose value for that dimension is absent;
with no bound an absent value passes trivially; a present value survives
iff it lies inclusively within the supplied bound(s). In particular a
record with `validity_end = None` is excluded by any query supplying
`validity_end_min` and included when no date bound is supplied. -/
theorem c8_date_dimension_filter :
    (∀ v lo hi : Option Int, inRange v lo hi = true ↔
       ((v = none → lo = none ∧ hi = none) ∧
        ∀ t : Int, v = some t →
          (∀ l : Int, lo = some l → l ≤ t) ∧ (∀ u : Int, hi = some u → t ≤ u))) ∧
    (∀ (st : IdxState) (ids : List String) (rid : String) c1 c2 m1 m2 s1 s2 e1 e2,
       rid ∈ filterDates st ids c1 c2 m1 m2 s1 s2 e1 e2 ↔
         (rid ∈ ids ∧
          inRange (List.lookup rid st.created) c1 c2 = true ∧
          inRange (List.lookup rid st.modified) m1 m2 = true ∧
          inRange ((List.lookup rid st.vstart).join) s1 s2 = true ∧
          inRange ((List.lookup rid st.vend).join) e1 e2 = true)) ∧
    (∀ (st : IdxState) (ids : List String) (rid : String) (e1 : Int) (e2 : Option Int),
       (List.lookup rid st.vend).join = none →
       rid ∉ filterDates st ids none none none none none none (some e1) e2) ∧
    (∀ (st : IdxState) (ids : List String) (rid : String),
       rid ∈ ids → rid ∈ filterDates st ids none none none none none none none none) := by
  refine ⟨?_, ?_, ?_, ?_⟩
  · intro v lo hi
    cases v <;> cases lo <;> cases hi <;> simp [inRange]
  · intro st ids rid c1 c2 m1 m2 s1 s2 e1 e2
    simp [filterDates, List.mem_filter, and_assoc]
  · intro st ids rid e1 e2 hnone hmem
    simp only [filterDates, List.mem_filter, Bool.and_eq_true] at hmem
    have hlast := hmem.2.2
    rw [hnone] at hlast
    simp [inRange] at hlast
  · intro st ids rid hmem
    simp [filterDates, List.mem_filter, hmem, inRange_none_none]

/-- Witness for C8: the record with id "a" has `validity_end = None` in
`stC9`, and a query supplying only `validity_end_min` excludes it. -/
theorem c8_date_dimension_filter_witness :
    ("a" : String) ∉ filterDates stC9 ["a"] none none none none none none (some 0) none :=
  c8_date_dimension_filter.2.2.1 stC9 ["a"] "a" 0 none (by decide)

theorem mem_list_inter (x : String) (l1 l2 : List String) :
    x ∈ l1.inter l2 ↔ x ∈ l1 ∧ x ∈ l2 := by
  simp [List.inter, List.mem_filter, List.elem_iff]

theorem mem_intersectAll (x : String) :
    ∀ (ps : List (List String)) (p : List String),
      x ∈ intersectAll (p :: ps) ↔ x ∈ p ∧ ∀ q ∈ ps, x ∈ q
  | [], p => by simp [intersectAll]
  | q :: qs, p => by
    have h0 : intersectAll (p :: q :: qs) = intersectAll ((p.inter q) :: qs) := rfl
    rw [h0, mem_intersectAll x qs (p.inter q), mem_list_inter]
    simp [and_assoc, List.forall_mem_cons]

/-- Claim C9, counterexample: in `stC9`, the query of `argsC9` provides two
text fields — `name = "x"` matches exactly the record "a", while
`filename = "zzz"` matches nothing. Under the claim's per-field fallback
(`specCandidatePool`) the pool is exactly {"a"}; the code's pool
(`candidatePool`, indexer.py:190-196) intersects first, finds the
intersection empty, and falls back to the full identifier universe, so it
also contains "b", which matches neither field. -/
theorem c9_pool_fallback_counterexample :
    candidatePool stC9 argsC9 = ["a", "b"] ∧
    specCandidatePool stC9 argsC9 = ["a"] ∧
    "b" ∈ candidatePool stC9 argsC9 ∧
    "b" ∉ specCandidatePool stC9 argsC9 :=
  ⟨by rfl, by rfl, by decide, by decide⟩

/-- Claim C9 (amended): each provided text field's trie-prefix expansion
(capped at `max_prefix_keys`) yields a candidate set and the sets are
intersected (AND semantics); but the permissive fallback applies to the
combined intersection, not per field: whenever the intersection of all
provided fields' sets is empty — including when a single provided field
has no matches, and also when two provided fields have disjoint non-empty
matches — the pool falls back to the full identifier universe. -/
theorem c9_amended_pool (st : IdxState) (a : SearchArgs) (x : String)
    (hp : poolsOf st a ≠ []) :
    (intersectAll (poolsOf st a) = [] → (x ∈ candidatePool st a ↔ x ∈ keysOf st.byId)) ∧
    (intersectAll (poolsOf st a) ≠ [] →
      (x ∈ candidatePool st a ↔ ∀ p ∈ poolsOf st a, x ∈ p)) := by
  obtain ⟨p, ps, hps⟩ : ∃ p ps, poolsOf st a = p :: ps := by
    cases hl : poolsOf st a with
    | nil => exact absurd hl hp
    | cons p ps => exact ⟨p, ps, rfl⟩
  constructor
  · intro hie
    rw [hps] at hie
    simp [candidatePool, hps, hie]
  · intro hie
    rw [hps] at hie
    have hne : (intersectAll (p :: ps)).isEmpty = false := by
      cases hi2 : intersectAll (p :: ps) with
      | nil => exact absurd hi2 hie
      | cons y ys => rfl
    simp only [candidatePool, hps, List.isEmpty_cons, Bool.false_eq_true, if_false, hne]
    rw [mem_intersectAll x ps p]
    simp [List.forall_mem_cons]

/-- Witness for C9 (amended) at the concrete state and query of the
counterexample. -/
theorem c9_amended_pool_witness :
    (intersectAll (poolsOf stC9 argsC9) = [] →
      (("a" : String) ∈ candidatePool stC9 argsC9 ↔ "a" ∈ keysOf stC9.byId)) ∧
    (intersectAll (poolsOf stC9 argsC9) ≠ [] →
      (("a" : String) ∈ candidatePool stC9 argsC9 ↔ ∀ p ∈ poolsOf stC9 argsC9, "a" ∈ p)) :=
  c9_amended_pool stC9 argsC9 "a" (by decide)

/-- Claim C10: an empty string passed for any text-field argument behaves
exactly like omitting the argument; and when every text field is empty or
omitted, the candidate pool is the full identifier universe, every
survivor is scored 100, and the `min_score` cut-off drops nothing. -/
theorem c10_empty_text_fields :
    (∀ (wr : String → String → ℚ) (st : IdxState) (a : SearchArgs),
      search wr st { a with name := some "" } = search wr st { a with name := none }) ∧
    (∀ (wr : String → String → ℚ) (st : IdxState) (a : SearchArgs),
      search wr st { a with description := some "" } =
        search wr st { a with description := none }) ∧
    (∀ (wr : String → String → ℚ) (st : IdxState) (a : SearchArgs),
      search wr st { a with filename := some "" } = search wr st { a with filename := none }) ∧
    (∀ (wr : String → String → ℚ) (st : IdxState) (a : SearchArgs),
      search wr st { a with recordId := some "" } = search wr st { a with recordId := none }) ∧
    (∀ (wr : String → String → ℚ) (st : IdxState) (a : SearchArgs),
      strOpt a.name = none → strOpt a.description = none → strOpt a.filename = none →
      strOpt a.recordId = none →
      poolsOf st a = [] ∧
      candidatePool st a = keysOf st.byId ∧
      scoredPairs wr st a = (filteredPool st a).map (fun rid => ((100 : ℚ), rid))) := by
  refine ⟨fun wr st a => rfl, fun wr st a => rfl, fun wr st a => rfl, fun wr st a => rfl, ?_⟩
  intro wr st a h1 h2 h3 h4
  have hpools : poolsOf st a = [] := by simp [poolsOf, h1, h2, h3, h4]
  have hsims : ∀ rid, simsOf wr st a rid = [] := fun rid => by simp [simsOf, h1, h2, h3, h4]
  refine ⟨hpools, by simp [candidatePool, hpools], ?_⟩
  have hcong : scoredPairs wr st a =
      (filteredPool st a).filterMap (fun rid => some ((100 : ℚ), rid)) := by
    simp only [scoredPairs]
    apply List.filterMap_congr
    intro rid _
    simp [hsims]
  rw [hcong,
    show (fun rid : String => some ((100 : ℚ), rid)) =
      some ∘ (fun rid : String => ((100 : ℚ), rid)) from rfl,
    List.filterMap_eq_map]

/-- Witness for C10 at the concrete state `stC9` with all-default search
arguments. -/
theorem c10_empty_text_fields_witness :
    poolsOf stC9 argsDefault = [] ∧
    candidatePool stC9 argsDefault = keysOf stC9.byId ∧
    scoredPairs wrZero stC9 argsDefault =
      (filteredPool stC9 argsDefault).map (fun rid => ((100 : ℚ), rid)) :=
  c10_empty_text_fields.2.2.2.2 wrZero stC9 argsDefault rfl rfl rfl rfl

end Terminy
